import Mathlib

/-!
Verification development for the drug-recognition core of the
AI-medical-prescription-analyzer repository.

The Python source (`prescription_analyzer.py`, `config.py`) is shallowly
embedded below.  Pure string processing is translated to Lean functions on
`String`/`List Char`; the regular-expression matching performed through
Python's `re.findall(pattern, text, re.IGNORECASE)` is embedded by a small
backtracking regex interpreter (`RE.run` / `findall`) over an explicit
regex AST, one AST value per pattern literal of the source.  External
collaborators (the NER pipeline, the Gemini model, the OCR extractors)
are modelled as explicit oracle parameters that either produce a value or
fail (`Except`/`Option`), mirroring Python exceptions and the `None`
pipeline sentinel.
-/

namespace MedRx

/-! ## Python string primitives -/

/-- Characters stripped by Python's `str.strip()`: space, tab, newline,
carriage return, vertical tab and form feed. -/
def isPyWhitespace (c : Char) : Bool :=
  c = ' ' || c = '\t' || c = '\n' || c = '\r' || c = '\x0b' || c = '\x0c'

/-- Python `str.lower()` (ASCII behaviour, which is all the tables use). -/
def pyLower (s : String) : String :=
  ⟨s.data.map Char.toLower⟩

/-- Python `str.strip()`: drop leading and trailing whitespace. -/
def pyStrip (s : String) : String :=
  ⟨((s.data.dropWhile isPyWhitespace).reverse.dropWhile isPyWhitespace).reverse⟩

/-- Sequence containment: `needle` occurs contiguously inside `hay`. -/
def containsSeq (needle : List Char) : List Char → Bool
  | [] => needle.isEmpty
  | c :: t => needle.isPrefixOf (c :: t) || containsSeq needle t

/-- Python's substring test `a in b`. -/
def pyIn (a b : String) : Bool :=
  containsSeq a.data b.data

/-- Python `s.replace(' ', '%20')` as used by `get_ecommerce_links`. -/
def pyReplaceSpaces (s : String) : String :=
  ⟨(s.data.map (fun c => if c = ' ' then ['%', '2', '0'] else [c])).flatten⟩

/-- The `\x7b` character. -/
def lbrace : Char := Char.ofNat 123

/-- The `\x7d` character. -/
def rbrace : Char := Char.ofNat 125

/-- Find the first `\x7b\x7d` slot of a format template, returning the text
before and after it. -/
def splitSlot : List Char → Option (List Char × List Char)
  | [] => none
  | [_] => none
  | c :: d :: rest =>
    if c = lbrace ∧ d = rbrace then some ([], rest)
    else (splitSlot (d :: rest)).map (fun q => (c :: q.1, q.2))

/-- Python `template.format(arg)` for the templates of the configuration,
each of which contains exactly one positional `\x7b\x7d` slot.  The single
argument is substituted into that slot. -/
def pyFormat (template arg : String) : String :=
  match splitSlot template.data with
  | some (pre, post) => ⟨pre ++ arg.data ++ post⟩
  | none => template

/-- Python `list(set(xs))` collapses duplicates; CPython's iteration order
over a `set` is unspecified, so the model fixes first-occurrence order and
the theorems below state only order-independent facts about these lists. -/
def firstSeenDedupAux : List String → List String → List String
  | _, [] => []
  | seen, a :: l =>
    if seen.contains a then firstSeenDedupAux seen l
    else a :: firstSeenDedupAux (a :: seen) l

/-- First-occurrence-preserving deduplication. -/
def firstSeenDedup (l : List String) : List String :=
  firstSeenDedupAux [] l

/-! ## Regex engine

Model of the fragment of Python `re` exercised by the source's pattern
literals: character-class repetition (greedy, with a lower bound and an
optional upper bound), case-insensitive literals, concatenation, ordered
alternation, greedy option, a single capturing group, and the word
boundary `\b`.  All call sites in the source pass `re.IGNORECASE`, so the
interpreter compares literals case-insensitively throughout (the character
classes used — `[A-Za-z]`, `\d`, `\s`, `[\s\.]` — are closed under case
folding already). -/

/-- Regex abstract syntax. -/
inductive RE where
  | cls (p : Char → Bool) (lo : Nat) (hi : Option Nat)
  | lit (s : List Char)
  | seq (a b : RE)
  | alt (a b : RE)
  | opt (a : RE)
  | group (a : RE)
  | wb

/-- The `\w` class used by `\b` (ASCII approximation of the word class). -/
def isWordChar (c : Char) : Bool :=
  c.isAlpha || c.isDigit || c = '_'

/-- The `\s` class (same ASCII set as `isPyWhitespace`). -/
def isRegexSpace (c : Char) : Bool :=
  isPyWhitespace c

/-- Length of the maximal prefix whose characters satisfy `p`. -/
def runLen (p : Char → Bool) : List Char → Nat
  | [] => 0
  | c :: t => if p c then runLen p t + 1 else 0

/-- Case-insensitive literal match; returns the remaining input. -/
def ciDrop : List Char → List Char → Option (List Char)
  | [], s => some s
  | _ :: _, [] => none
  | c :: t, d :: s => if c.toLower = d.toLower then ciDrop t s else none

/-- One backtracking step: all ways for the regex to match a prefix of the
input, in the priority order of a backtracking engine (first alternative
first, greedy repetition longest first, option present first).  Each
result is `(consumed, rest, capture of the group if one matched)`.
`prev` is the character immediately before the current position, used by
the word-boundary test. -/
def RE.run : RE → Option Char → List Char → List (List Char × List Char × Option (List Char))
  | .wb, prev, s =>
    let before := match prev with | some c => isWordChar c | none => false
    let after := match s.head? with | some c => isWordChar c | none => false
    if before != after then [([], s, none)] else []
  | .lit l, _, s =>
    match ciDrop l s with
    | some rest => [(s.take l.length, rest, none)]
    | none => []
  | .cls p lo hi, _, s =>
    let L := runLen p s
    let top := match hi with | some b => min L b | none => L
    if top < lo then []
    else (List.range (top + 1 - lo)).map (fun k => (s.take (top - k), s.drop (top - k), none))
  | .seq a b, prev, s =>
    (a.run prev s).flatMap (fun x =>
      let prev2 := match x.1.getLast? with | some c => some c | none => prev
      (b.run prev2 x.2.1).map (fun y => (x.1 ++ y.1, y.2.1, x.2.2 <|> y.2.2)))
  | .alt a b, prev, s => a.run prev s ++ b.run prev s
  | .opt a, prev, s => a.run prev s ++ [([], s, none)]
  | .group a, prev, s => (a.run prev s).map (fun x => (x.1, x.2.1, some x.1))

/-- Scan of `re.findall`: at each position take the engine's first match
(if any) — the matched text when the pattern has no group, the group's
text when it has one — then resume after the match; on no match advance
one character.  `fuel` bounds the recursion; `findall` supplies
`length + 1`, which the scan never exhausts since every step shortens the
input. -/
def findallAux (re : RE) : Nat → Option Char → List Char → List String
  | 0, _, _ => []
  | fuel + 1, prev, s =>
    match re.run prev s with
    | (c, rest, g) :: _ =>
      let out : String := ⟨match g with | some cap => cap | none => c⟩
      if c.isEmpty then
        match s with
        | [] => [out]
        | ch :: t => out :: findallAux re fuel (some ch) t
      else
        out :: findallAux re fuel (match c.getLast? with | some ch => some ch | none => prev) rest
    | [] =>
      match s with
      | [] => []
      | ch :: t => findallAux re fuel (some ch) t

/-- `re.findall(pattern, text, re.IGNORECASE)` for the embedded patterns. -/
def findall (re : RE) (text : String) : List String :=
  findallAux re (text.length + 1) none text.data

/-- Ordered alternation of a nonempty list of branches. -/
def altList : RE → List RE → RE
  | a, [] => a
  | a, b :: t => .alt a (altList b t)

/-- Literal regex from a string. -/
def strLit (s : String) : RE := .lit s.data

/-- The class `[A-Za-z]` repeated at least `lo` times. -/
def alphaRep (lo : Nat) : RE := .cls Char.isAlpha lo none

/-- The class `\d+`. -/
def digits1 : RE := .cls Char.isDigit 1 none

/-- The class `\s*`. -/
def space0 : RE := .cls isRegexSpace 0 none

/-- The class `\s+`. -/
def space1 : RE := .cls isRegexSpace 1 none

/-! ## Config: pattern library (`config.py`) -/

/-- Source pattern `\d+\s*mg` and its six siblings of
`Config.DOSAGE_PATTERNS`, in source order. -/
def DOSAGE_PATTERNS : List RE :=
  [ .seq digits1 (.seq space0 (strLit ("mg"))),
    .seq digits1 (.seq space0 (strLit ("g"))),
    .seq digits1 (.seq space0 (strLit ("ml"))),
    .seq digits1 (.seq space0 (strLit ("mcg"))),
    .seq digits1 (.seq space0 (.seq (strLit ("unit")) (.opt (strLit ("s"))))),
    .seq digits1 (.seq space0 (.seq (strLit ("tablet")) (.opt (strLit ("s"))))),
    .seq digits1 (.seq space0 (.seq (strLit ("capsule")) (.opt (strLit ("s"))))) ]

/-- `Config.FREQUENCY_PATTERNS`, in source order. -/
def FREQUENCY_PATTERNS : List RE :=
  [ .seq (strLit ("once")) (.seq space1 (strLit ("daily"))),
    .seq (strLit ("twice")) (.seq space1 (strLit ("daily"))),
    .seq (strLit ("thrice")) (.seq space1 (strLit ("daily"))),
    .seq digits1 (.seq space1 (.seq (strLit ("time")) (.seq (.opt (strLit ("s"))) (.seq space1 (strLit ("daily")))))),
    .seq (strLit ("every")) (.seq space1 (.seq digits1 (.seq space1 (.seq (strLit ("hour")) (.opt (strLit ("s"))))))),
    strLit ("bid"),
    strLit ("tid"),
    strLit ("qid"),
    strLit ("od"),
    strLit ("bd"),
    strLit ("morning"),
    strLit ("evening"),
    strLit ("night") ]

/-- A partner pharmacy site of `Config.MEDICAL_ECOMMERCE_SITES`. -/
structure EcommerceSite where
  name : String
  url : String
  search_url : String
deriving DecidableEq

/-- `Config.MEDICAL_ECOMMERCE_SITES`, in source order. -/
def MEDICAL_ECOMMERCE_SITES : List EcommerceSite :=
  [ { name := "1mg", url := "https://www.1mg.com",
      search_url := "https://www.1mg.com/search/all?name=\x7b\x7d" },
    { name := "Netmeds", url := "https://www.netmeds.com",
      search_url := "https://www.netmeds.com/catalogsearch/result/\x7b\x7d/all" },
    { name := "PharmEasy", url := "https://pharmeasy.in",
      search_url := "https://pharmeasy.in/search/all?name=\x7b\x7d" },
    { name := "Apollo Pharmacy", url := "https://www.apollopharmacy.in",
      search_url := "https://www.apollopharmacy.in/search-medicines/\x7b\x7d" } ]

/-- `Config.COMMON_DRUGS`: canonical name to alias list, in the insertion
order of the Python `dict` literal. -/
def COMMON_DRUGS : List (String × List String) :=
  [ ("paracetamol", ["acetaminophen", "tylenol", "crocin", "dolo"]),
    ("ibuprofen", ["brufen", "advil", "combiflam"]),
    ("amoxicillin", ["augmentin", "amoxil"]),
    ("metformin", ["glucophage", "glycomet"]),
    ("aspirin", ["disprin", "ecosprin"]),
    ("omeprazole", ["prilosec", "omez"]),
    ("atorvastatin", ["lipitor", "atorlip"]),
    ("amlodipine", ["norvasc", "amlovas"]) ]

/-- The canonical names (the keys of `COMMON_DRUGS`). -/
def canonicalNames : List String := COMMON_DRUGS.map Prod.fst

/-! ## Drug Matcher (`prescription_analyzer.py`) -/

/-- The three `drug_patterns` literals of `recognize_and_standardize_drugs`:
suffix morphology, dosage-form tag + name (group), name (group) + dose. -/
def drug_patterns : List RE :=
  [ .seq .wb (.seq (alphaRep 1)
      (.seq (altList (strLit ("cillin"))
        [strLit ("mycin"), strLit ("prazole"), strLit ("statin"),
         strLit ("dipine"), strLit ("formin")]) .wb)),
    .seq .wb (.seq (altList (strLit ("tab")) [strLit ("cap"), strLit ("syp"), strLit ("inj")])
      (.seq (.cls (fun c => isRegexSpace c || c = '.') 0 none)
        (.seq (.group (.seq (alphaRep 1) (.opt (.seq space1 (alphaRep 1))))) .wb))),
    .seq .wb (.seq (.group (alphaRep 3))
      (.seq space1 (.seq digits1 (.seq space0
        (.seq (altList (strLit ("mg")) [strLit ("g"), strLit ("ml"), strLit ("mcg")]) .wb))))) ]

/-- All raw pattern matches, pattern loop outside, match loop inside, as in
lines 90-92 of the source.  (`re.findall` returns plain strings for all
three patterns — each has at most one capturing group — so the
`isinstance(match, tuple)` branch of line 93 is dead and not modelled.) -/
def raw_matches (text : String) : List String :=
  (drug_patterns.map (fun p => findall p text)).flatten

/-- The `recognized_drugs` list built at lines 90-96: matches of length
greater than 2, lower-cased and stripped. -/
def recognized_drugs_list (text : String) : List String :=
  (raw_matches text).filterMap
    (fun m => if m.length > 2 then some (pyStrip (pyLower m)) else none)

/-- `standardize_drug_name` (lines 107-125): direct key match, then alias
match, then substring match, else the original argument unchanged. -/
def standardize_drug_name (drug_name : String) : String :=
  let drug_lower := pyStrip (pyLower drug_name)
  if COMMON_DRUGS.any (fun kv => kv.1 == drug_lower) then drug_lower
  else
    match COMMON_DRUGS.find? (fun kv => kv.2.contains drug_lower) with
    | some kv => kv.1
    | none =>
      match COMMON_DRUGS.find? (fun kv =>
          (kv.1 :: kv.2).any (fun syn => pyIn syn drug_lower || pyIn drug_lower syn)) with
      | some kv => kv.1
      | none => drug_name

/-- One iteration of the standardization loop at lines 99-103: append the
standardized name when it is truthy (nonempty) and not yet present. -/
def dedupStep (acc : List String) (drug : String) : List String :=
  let s := standardize_drug_name drug
  if s != "" && !acc.contains s then acc ++ [s] else acc

/-- `recognize_and_standardize_drugs` (lines 78-105). -/
def recognize_and_standardize_drugs (text : String) : List String :=
  (recognized_drugs_list text).foldl dedupStep []

/-! ## Dosage/Frequency Extractor -/

/-- The record returned by `validate_dosage_and_frequency`. -/
structure DosageFrequency where
  dosages : List String
  frequencies : List String
deriving DecidableEq

/-- `validate_dosage_and_frequency` (lines 127-145): every pattern applied
to the text, matches pooled, duplicates collapsed by `list(set(...))`. -/
def validate_dosage_and_frequency (text : String) : DosageFrequency :=
  { dosages := firstSeenDedup ((DOSAGE_PATTERNS.map (fun p => findall p text)).flatten),
    frequencies := firstSeenDedup ((FREQUENCY_PATTERNS.map (fun p => findall p text)).flatten) }

/-! ## Link Builder -/

/-- One entry of the per-drug link list built by `get_ecommerce_links`. -/
structure EcommerceLink where
  site_name : String
  url : String
deriving DecidableEq

/-- The inner loop of `get_ecommerce_links` (lines 195-201): one link per
configured site, in site order. -/
def linksFor (drug : String) : List EcommerceLink :=
  MEDICAL_ECOMMERCE_SITES.map (fun site =>
    { site_name := site.name, url := pyFormat site.search_url (pyReplaceSpaces drug) })

/-- Python `dict` assignment `m[k] = v` on an insertion-ordered
association list: replace in place if the key exists, else append. -/
def dictAssign {α : Type} : List (String × α) → String → α → List (String × α)
  | [], k, v => [(k, v)]
  | p :: t, k, v => if p.1 == k then (k, v) :: t else p :: dictAssign t k v

/-- Python `dict` lookup. -/
def dictGet {α : Type} (m : List (String × α)) (k : String) : Option α :=
  (m.find? (fun p => p.1 == k)).map (fun p => p.2)

/-- `get_ecommerce_links` (lines 190-204). -/
def get_ecommerce_links (drug_names : List String) : List (String × List EcommerceLink) :=
  drug_names.foldl (fun m drug => dictAssign m drug (linksFor drug)) []

/-! ## External collaborators and the Result Assembler -/

/-- An aggregated entity as produced by the NER pipeline before filtering
(field names follow the keys read at lines 178-182).  The confidence score
is carried opaquely — the core only copies it. -/
structure RawEntity where
  entity_group : String
  word : String
  score : Rat

/-- A filtered medical entity (lines 179-183). -/
structure MedicalEntity where
  text : String
  label : String
  confidence : Rat

/-- `extract_medical_entities` (lines 168-188): `none` models
`self.ner_pipeline is None`; an `Except.error` models an exception raised
by the pipeline call, caught at line 186 and turned into `[]`. -/
def extract_medical_entities
    (ner : Option (String → Except String (List RawEntity))) (text : String) :
    List MedicalEntity :=
  match ner with
  | none => []
  | some pipe =>
    match pipe text with
    | .error _ => []
    | .ok entities =>
      (entities.filter (fun e =>
        e.entity_group ∈ ["CHEMICAL", "DISEASE", "GENE_OR_GENE_PRODUCT"])).map
        (fun e => { text := e.word, label := e.entity_group, confidence := e.score })

/-- The prompt f-string of `analyze_with_gemini` (lines 150-161). -/
def geminiPrompt (text : String) : String :=
  "\n            Analyze this medical prescription text and provide:\n            1. List of medications mentioned\n            2. Dosages and frequencies\n            3. Any potential drug interactions or warnings\n            4. Medical conditions mentioned\n            5. Doctor\x27s instructions\n            \n            Prescription text: " ++ text ++
  "\n            \n            Provide a structured analysis in JSON format.\n            "

/-- `analyze_with_gemini` (lines 147-166): an exception anywhere in the
call is caught and rendered as the error-marked string of line 166. -/
def analyze_with_gemini (gemini : String → Except String String) (text : String) : String :=
  match gemini (geminiPrompt text) with
  | .ok r => r
  | .error e => "Gemini analysis error: " ++ e

/-- Input to `comprehensive_analysis`: direct text, or the text produced
by one of the two OCR paths (both OCR helpers catch their own exceptions
and always return a string, lines 43-76). -/
inductive AnalysisInput where
  | text (s : String)
  | imagePath (ocrResult : String)
  | imageUpload (ocrResult : String)

/-- The string the analysis proceeds with (lines 209-218). -/
def extractedTextOf : AnalysisInput → String
  | .text s => s
  | .imagePath r => r
  | .imageUpload r => r

/-- The aggregate record of lines 221-231. -/
structure AnalysisResult where
  extracted_text : String
  recognized_drugs : List String
  dosage_frequency : DosageFrequency
  medical_entities : List MedicalEntity
  gemini_analysis : String
  ecommerce_links : List (String × List EcommerceLink)

/-- `comprehensive_analysis` (lines 206-232). -/
def comprehensive_analysis
    (ner : Option (String → Except String (List RawEntity)))
    (gemini : String → Except String String)
    (input : AnalysisInput) : AnalysisResult :=
  let extracted := extractedTextOf input
  let drugs := recognize_and_standardize_drugs extracted
  { extracted_text := extracted,
    recognized_drugs := drugs,
    dosage_frequency := validate_dosage_and_frequency extracted,
    medical_entities := extract_medical_entities ner extracted,
    gemini_analysis := analyze_with_gemini gemini extracted,
    ecommerce_links := get_ecommerce_links drugs }

/-! ## Spec-side definitions -/

/-- Modelled from the spec wording of resolution step 4 (claim C2): the
candidate is normalized, matched exactly against the canonical names, then
against the alias sets, then by two-sided substring containment, and
otherwise passes through unchanged. -/
def resolveCandidate_spec (candidate : String) : String :=
  let c := pyStrip (pyLower candidate)
  if c ∈ canonicalNames then c
  else
    match COMMON_DRUGS.find? (fun kv => kv.2.contains c) with
    | some kv => kv.1
    | none =>
      match COMMON_DRUGS.find? (fun kv =>
          (kv.1 :: kv.2).any (fun syn => pyIn syn c || pyIn c syn)) with
      | some kv => kv.1
      | none => candidate

/-! ## Helper lemmas -/

theorem contains_iff {l : List String} {a : String} : l.contains a = true ↔ a ∈ l := by
  simp [List.contains, List.elem_iff]

theorem mem_firstSeenDedupAux :
    ∀ (l seen : List String) (x : String),
      x ∈ firstSeenDedupAux seen l ↔ (x ∈ l ∧ x ∉ seen) := by
  intro l
  induction l with
  | nil => intro seen x; simp [firstSeenDedupAux]
  | cons a t ih =>
    intro seen x
    simp only [firstSeenDedupAux]
    by_cases h : seen.contains a = true
    · have ha : a ∈ seen := contains_iff.mp h
      rw [if_pos h, ih]
      simp only [List.mem_cons]
      constructor
      · rintro ⟨hx, hs⟩; exact ⟨Or.inr hx, hs⟩
      · rintro ⟨hx | hx, hs⟩
        · exact absurd (hx ▸ ha) hs
        · exact ⟨hx, hs⟩
    · have ha : a ∉ seen := fun hm => h (contains_iff.mpr hm)
      rw [if_neg h]
      simp only [List.mem_cons, ih]
      constructor
      · rintro (rfl | ⟨hx, hs⟩)
        · exact ⟨Or.inl rfl, ha⟩
        · exact ⟨Or.inr hx, fun hm => hs (Or.inr hm)⟩
      · rintro ⟨hx | hx, hs⟩
        · exact Or.inl hx
        · by_cases hxa : x = a
          · exact Or.inl hxa
          · exact Or.inr ⟨hx, fun hm => hm.elim hxa hs⟩

theorem nodup_firstSeenDedupAux :
    ∀ (l seen : List String), (firstSeenDedupAux seen l).Nodup := by
  intro l
  induction l with
  | nil => intro seen; simp [firstSeenDedupAux]
  | cons a t ih =>
    intro seen
    simp only [firstSeenDedupAux]
    by_cases h : seen.contains a = true
    · rw [if_pos h]; exact ih seen
    · rw [if_neg h]
      refine List.Nodup.cons ?_ (ih _)
      intro hmem
      rcases (mem_firstSeenDedupAux t (a :: seen) a).mp hmem with ⟨-, hs⟩
      exact hs (List.mem_cons_self _ _)

theorem firstSeenDedupAux_congr :
    ∀ (l seen₁ seen₂ : List String),
      (∀ x, x ∈ seen₁ ↔ x ∈ seen₂) →
      firstSeenDedupAux seen₁ l = firstSeenDedupAux seen₂ l := by
  intro l
  induction l with
  | nil => intros; rfl
  | cons a t ih =>
    intro s₁ s₂ h
    have hc : (s₁.contains a = true) ↔ (s₂.contains a = true) := by
      rw [contains_iff, contains_iff]; exact h a
    simp only [firstSeenDedupAux]
    by_cases h₁ : s₁.contains a = true
    · rw [if_pos h₁, if_pos (hc.mp h₁)]
      exact ih s₁ s₂ h
    · rw [if_neg h₁, if_neg (fun h₂ => h₁ (hc.mpr h₂))]
      rw [ih (a :: s₁) (a :: s₂) (fun x => by simp [List.mem_cons, h x])]

theorem dedupStep_of_contains (acc : List String) (d : String)
    (h : acc.contains (standardize_drug_name d) = true) : dedupStep acc d = acc := by
  simp only [dedupStep, h, Bool.not_true, Bool.and_false, Bool.false_eq_true, if_false]

theorem dedupStep_of_empty (acc : List String) (d : String)
    (h : (standardize_drug_name d != "") = false) : dedupStep acc d = acc := by
  simp [dedupStep, h]

theorem dedupStep_append (acc : List String) (d : String)
    (h₁ : (standardize_drug_name d != "") = true)
    (h₂ : acc.contains (standardize_drug_name d) = false) :
    dedupStep acc d = acc ++ [standardize_drug_name d] := by
  simp only [dedupStep, h₁, h₂, Bool.not_false, Bool.and_true, if_true]

/-- The standardization loop equals initial list plus first-seen
deduplication (relative to the accumulator) of the truthy resolved names. -/
theorem foldl_dedupStep :
    ∀ (l acc : List String),
      l.foldl dedupStep acc =
        acc ++ firstSeenDedupAux acc
          ((l.map standardize_drug_name).filter (fun s => s != "")) := by
  intro l
  induction l with
  | nil => intro acc; simp [firstSeenDedupAux]
  | cons d t ih =>
    intro acc
    simp only [List.foldl_cons, List.map_cons, List.filter_cons]
    by_cases h₀ : (standardize_drug_name d != "") = true
    · rw [if_pos h₀]
      simp only [firstSeenDedupAux]
      by_cases h₁ : acc.contains (standardize_drug_name d) = true
      · rw [if_pos h₁, dedupStep_of_contains acc d h₁, ih]
      · rw [if_neg h₁, dedupStep_append acc d h₀ (Bool.not_eq_true _ ▸ h₁), ih]
        rw [firstSeenDedupAux_congr _ (acc ++ [standardize_drug_name d])
          (standardize_drug_name d :: acc)
          (fun x => by simp [List.mem_append, List.mem_cons, or_comm])]
        simp
    · rw [if_neg h₀, dedupStep_of_empty acc d (Bool.not_eq_true _ ▸ h₀), ih]

theorem any_key_iff (c : String) :
    (COMMON_DRUGS.any (fun kv => kv.1 == c) = true) ↔ c ∈ canonicalNames := by
  simp [canonicalNames, List.any_eq_true, List.mem_map]

/-- Distinct entries of the synonym table have disjoint alias lists. -/
theorem common_drugs_alias_disjoint :
    ∀ a ∈ COMMON_DRUGS, ∀ b ∈ COMMON_DRUGS, ∀ x ∈ a.2, x ∈ b.2 → a = b := by decide

theorem dictGet_dictAssign_self {α : Type} :
    ∀ (m : List (String × α)) (k : String) (v : α),
      dictGet (dictAssign m k v) k = some v := by
  intro m
  induction m with
  | nil => intro k v; simp [dictAssign, dictGet, List.find?]
  | cons p t ih =>
    intro k v
    simp only [dictAssign]
    by_cases h : (p.1 == k) = true
    · rw [if_pos h]; simp [dictGet, List.find?]
    · rw [if_neg h]
      simp only [dictGet, List.find?, h]
      exact ih k v

theorem dictGet_dictAssign_ne {α : Type} :
    ∀ (m : List (String × α)) (k k' : String) (v : α), k' ≠ k →
      dictGet (dictAssign m k v) k' = dictGet m k' := by
  intro m
  induction m with
  | nil =>
    intro k k' v hne
    have h1 : (k == k') = false := by simpa using fun h => hne h.symm
    simp [dictAssign, dictGet, List.find?, h1]
  | cons p t ih =>
    intro k k' v hne
    simp only [dictAssign]
    by_cases h : (p.1 == k) = true
    · rw [if_pos h]
      have hp : p.1 = k := by simpa using h
      simp only [dictGet, List.find?]
      have h1 : (k == k') = false := by
        simpa using fun h => hne h.symm
      have h2 : (p.1 == k') = false := by
        rw [hp]; exact h1
      rw [h1, h2]
    · rw [if_neg h]
      simp only [dictGet, List.find?]
      by_cases h' : (p.1 == k') = true
      · rw [h']
      · rw [Bool.not_eq_true] at h'
        rw [h']
        exact ih k k' v hne

theorem mem_keys_dictAssign {α : Type} :
    ∀ (m : List (String × α)) (k x : String) (v : α),
      (x ∈ (dictAssign m k v).map Prod.fst ↔ x ∈ m.map Prod.fst ∨ x = k) := by
  intro m
  induction m with
  | nil => intro k x v; simp [dictAssign]
  | cons p t ih =>
    intro k x v
    simp only [dictAssign]
    by_cases h : (p.1 == k) = true
    · have hp : p.1 = k := by simpa using h
      rw [if_pos h]
      subst hp
      simp only [List.map_cons, List.mem_cons]
      tauto
    · rw [if_neg h]
      simp only [List.map_cons, List.mem_cons, ih]
      tauto

theorem nodup_keys_dictAssign {α : Type} :
    ∀ (m : List (String × α)) (k : String) (v : α),
      (m.map Prod.fst).Nodup → ((dictAssign m k v).map Prod.fst).Nodup := by
  intro m
  induction m with
  | nil => intro k v _; simp [dictAssign]
  | cons p t ih =>
    intro k v hnd
    simp only [List.map_cons, List.nodup_cons] at hnd
    simp only [dictAssign]
    by_cases h : (p.1 == k) = true
    · have hp : p.1 = k := by simpa using h
      rw [if_pos h]
      simp only [List.map_cons, List.nodup_cons]
      exact ⟨hp ▸ hnd.1, hnd.2⟩
    · have hp : p.1 ≠ k := by simpa using h
      rw [if_neg h]
      simp only [List.map_cons, List.nodup_cons]
      refine ⟨?_, ih k v hnd.2⟩
      intro hmem
      rcases (mem_keys_dictAssign t k p.1 v).mp hmem with hx | hx
      · exact hnd.1 hx
      · exact hp hx

/-- Lookup after the key loop of `get_ecommerce_links`. -/
theorem dictGet_foldl_links :
    ∀ (l : List String) (m : List (String × List EcommerceLink)) (k : String),
      dictGet (l.foldl (fun m drug => dictAssign m drug (linksFor drug)) m) k =
        if k ∈ l then some (linksFor k) else dictGet m k := by
  intro l
  induction l with
  | nil => intro m k; simp
  | cons d t ih =>
    intro m k
    simp only [List.foldl_cons]
    rw [ih]
    by_cases ht : k ∈ t
    · rw [if_pos ht, if_pos (List.mem_cons_of_mem _ ht)]
    · rw [if_neg ht]
      by_cases hd : k = d
      · subst hd
        rw [if_pos (List.mem_cons_self _ _), dictGet_dictAssign_self]
      · rw [if_neg (by simp [List.mem_cons, hd, ht]), dictGet_dictAssign_ne _ _ _ _ hd]

theorem mem_keys_foldl_links :
    ∀ (l : List String) (m : List (String × List EcommerceLink)) (k : String),
      (k ∈ (l.foldl (fun m drug => dictAssign m drug (linksFor drug)) m).map Prod.fst ↔
        k ∈ m.map Prod.fst ∨ k ∈ l) := by
  intro l
  induction l with
  | nil => intro m k; simp
  | cons d t ih =>
    intro m k
    simp only [List.foldl_cons]
    rw [ih, mem_keys_dictAssign]
    simp [List.mem_cons]
    tauto

theorem nodup_keys_foldl_links :
    ∀ (l : List String) (m : List (String × List EcommerceLink)),
      (m.map Prod.fst).Nodup →
      ((l.foldl (fun m drug => dictAssign m drug (linksFor drug)) m).map Prod.fst).Nodup := by
  intro l
  induction l with
  | nil => intro m h; exact h
  | cons d t ih =>
    intro m h
    simp only [List.foldl_cons]
    exact ih _ (nodup_keys_dictAssign m d (linksFor d) h)

/-! ## Claim theorems -/

/-- C1: for every input text, `recognize_and_standardize_drugs` returns a
sequence with no duplicate names, equal to the first-seen-order
deduplication of the standardized (truthy) candidates — each name sits at
the position of the first candidate that resolved to it. -/
theorem recognize_and_standardize_drugs_nodup_first_seen (text : String) :
    (recognize_and_standardize_drugs text).Nodup ∧
    recognize_and_standardize_drugs text =
      firstSeenDedup
        (((recognized_drugs_list text).map standardize_drug_name).filter
          (fun s => s != "")) := by
  have h := foldl_dedupStep (recognized_drugs_list text) []
  rw [List.nil_append] at h
  constructor
  · rw [recognize_and_standardize_drugs, h]
    exact nodup_firstSeenDedupAux _ []
  · rw [recognize_and_standardize_drugs, h, firstSeenDedup]

/-- C3: on the empty string the Drug Matcher returns no drugs and the
Dosage/Frequency Extractor returns two empty sets. -/
theorem empty_text_yields_empty_results :
    recognize_and_standardize_drugs "" = [] ∧
    (validate_dosage_and_frequency "").dosages = [] ∧
    (validate_dosage_and_frequency "").frequencies = [] := by decide

/-- C7: the synonym table resolves the alias "Crocin" to "paracetamol"
and the alias "Augmentin" to "amoxicillin". -/
theorem alias_resolution_examples :
    standardize_drug_name ("Crocin") = "paracetamol" ∧
    standardize_drug_name ("Augmentin") = "amoxicillin" := by decide

/-- C8: every element of the returned drug sequence is contributed by a
raw pattern match of length strictly greater than 2; candidates of length
at most 2 are discarded by the noise filter. -/
theorem short_matches_discarded (text : String) (d : String)
    (h : d ∈ recognize_and_standardize_drugs text) :
    ∃ m, m ∈ raw_matches text ∧ m.length > 2 ∧
      d = standardize_drug_name (pyStrip (pyLower m)) := by
  rw [recognize_and_standardize_drugs, foldl_dedupStep, List.nil_append] at h
  rcases (mem_firstSeenDedupAux _ _ _).mp h with ⟨hmem, -⟩
  rcases List.mem_filter.mp hmem with ⟨hmap, -⟩
  rcases List.mem_map.mp hmap with ⟨drug, hdrug, rfl⟩
  rcases List.mem_filterMap.mp hdrug with ⟨m, hm, hopt⟩
  by_cases hl : m.length > 2
  · rw [if_pos hl] at hopt
    exact ⟨m, hm, hl, by rw [Option.some_inj.mp hopt]⟩
  · rw [if_neg hl] at hopt
    cases hopt

/-- C8 witness at a concrete text: "abc" survives (length 3), produced by
the dosage-form pattern on "cap abc". -/
theorem short_matches_discarded_witness :
    ("abc" ∈ recognize_and_standardize_drugs ("cap abc")) ∧
    ∃ m, m ∈ raw_matches ("cap abc") ∧ m.length > 2 ∧
      "abc" = standardize_drug_name (pyStrip (pyLower m)) :=
  ⟨by decide, short_matches_discarded ("cap abc") "abc" (by decide)⟩

/-- C9: `recognize_and_standardize_drugs` is a pure function of its input
text — identical inputs yield identical ordered outputs, with no hidden
state across invocations. -/
theorem recognize_and_standardize_drugs_deterministic (t₁ t₂ : String)
    (h : t₁ = t₂) :
    recognize_and_standardize_drugs t₁ = recognize_and_standardize_drugs t₂ := by
  rw [h]

/-- C9 witness: two runs on the same concrete text agree. -/
theorem recognize_and_standardize_drugs_deterministic_witness :
    recognize_and_standardize_drugs ("tab Crocin 650 mg") =
      recognize_and_standardize_drugs ("tab Crocin 650 mg") :=
  recognize_and_standardize_drugs_deterministic ("tab Crocin 650 mg")
    ("tab Crocin 650 mg") rfl

/-- Shared helper: with no key, alias, or substring match in the table,
the resolver returns its argument. -/
theorem standardize_no_table_match (s : String)
    (h₁ : pyStrip (pyLower s) ∉ canonicalNames)
    (h₂ : ∀ kv ∈ COMMON_DRUGS, pyStrip (pyLower s) ∉ kv.2)
    (h₃ : ∀ kv ∈ COMMON_DRUGS, ∀ syn ∈ kv.1 :: kv.2,
      pyIn syn (pyStrip (pyLower s)) = false ∧
      pyIn (pyStrip (pyLower s)) syn = false) :
    standardize_drug_name s = s := by
  simp only [standardize_drug_name]
  rw [if_neg (fun hc => h₁ ((any_key_iff _).mp hc))]
  have hf₁ : COMMON_DRUGS.find? (fun kv => kv.2.contains (pyStrip (pyLower s))) = none := by
    rw [List.find?_eq_none]
    intro kv hkv hcont
    exact h₂ kv hkv (contains_iff.mp hcont)
  have hf₂ : COMMON_DRUGS.find? (fun kv =>
      (kv.1 :: kv.2).any (fun syn =>
        pyIn syn (pyStrip (pyLower s)) || pyIn (pyStrip (pyLower s)) syn)) = none := by
    rw [List.find?_eq_none]
    intro kv hkv hany
    rcases List.any_eq_true.mp hany with ⟨syn, hsyn, hor⟩
    rcases Bool.or_eq_true _ _ |>.mp hor with h | h
    · exact absurd h (by rw [(h₃ kv hkv syn hsyn).1]; exact Bool.false_ne_true)
    · exact absurd h (by rw [(h₃ kv hkv syn hsyn).2]; exact Bool.false_ne_true)
  rw [hf₁, hf₂]

/-- C10: when the normalized candidate matches no canonical name, no
alias, and no substring entry, `standardize_drug_name` returns its
argument exactly as given — original casing and surrounding whitespace
intact — although every table comparison used the lower-cased, stripped
form. -/
theorem standardize_fallback_preserves_input (s : String)
    (h₁ : pyStrip (pyLower s) ∉ canonicalNames)
    (h₂ : ∀ kv ∈ COMMON_DRUGS, pyStrip (pyLower s) ∉ kv.2)
    (h₃ : ∀ kv ∈ COMMON_DRUGS, ∀ syn ∈ kv.1 :: kv.2,
      pyIn syn (pyStrip (pyLower s)) = false ∧
      pyIn (pyStrip (pyLower s)) syn = false) :
    standardize_drug_name s = s :=
  standardize_no_table_match s h₁ h₂ h₃

/-- C10 witness: a mixed-case, whitespace-padded unmatched name passes
through byte-for-byte. -/
theorem standardize_fallback_preserves_input_witness :
    standardize_drug_name ("  XyZzy\t") = "  XyZzy\t" :=
  standardize_fallback_preserves_input ("  XyZzy\t")
    (by decide) (by decide) (by decide)

/-- C2: `standardize_drug_name` resolves a candidate in order: (a) an
exact canonical-name match returns that canonical name; (b) an exact
alias match returns that alias's canonical name (well-defined because the
alias lists are pairwise disjoint); (c) otherwise the first entry with a
two-sided substring match supplies the canonical name; (d) otherwise the
candidate is returned unchanged — and, being total, the function raises
no exception for unmatched drugs. -/
theorem standardize_drug_name_resolution_order (s : String) :
    (pyStrip (pyLower s) ∈ canonicalNames →
      standardize_drug_name s = pyStrip (pyLower s)) ∧
    (pyStrip (pyLower s) ∉ canonicalNames →
      ∀ kv ∈ COMMON_DRUGS, pyStrip (pyLower s) ∈ kv.2 →
        standardize_drug_name s = kv.1) ∧
    (pyStrip (pyLower s) ∉ canonicalNames →
      (∀ kv ∈ COMMON_DRUGS, pyStrip (pyLower s) ∉ kv.2) →
      ∀ kv, COMMON_DRUGS.find? (fun kv =>
          (kv.1 :: kv.2).any (fun syn =>
            pyIn syn (pyStrip (pyLower s)) || pyIn (pyStrip (pyLower s)) syn)) = some kv →
        standardize_drug_name s = kv.1) ∧
    (pyStrip (pyLower s) ∉ canonicalNames →
      (∀ kv ∈ COMMON_DRUGS, pyStrip (pyLower s) ∉ kv.2) →
      (∀ kv ∈ COMMON_DRUGS, ∀ syn ∈ kv.1 :: kv.2,
        pyIn syn (pyStrip (pyLower s)) = false ∧
        pyIn (pyStrip (pyLower s)) syn = false) →
      standardize_drug_name s = s) := by
  refine ⟨?_, ?_, ?_, ?_⟩
  · intro h
    simp only [standardize_drug_name]
    rw [if_pos ((any_key_iff _).mpr h)]
  · intro h kv hkv hmem
    have hsome : ∃ kv₀, COMMON_DRUGS.find?
        (fun kv => kv.2.contains (pyStrip (pyLower s))) = some kv₀ := by
      cases hE : COMMON_DRUGS.find? (fun kv => kv.2.contains (pyStrip (pyLower s))) with
      | some kv₀ => exact ⟨kv₀, rfl⟩
      | none =>
        exact absurd (contains_iff.mpr hmem) (List.find?_eq_none.mp hE kv hkv)
    rcases hsome with ⟨kv₀, hfind⟩
    have h0mem := List.mem_of_find?_eq_some hfind
    have h0p := @List.find?_some (String × List String)
      (fun kv => kv.2.contains (pyStrip (pyLower s))) kv₀ COMMON_DRUGS hfind
    have h0c : pyStrip (pyLower s) ∈ kv₀.2 := contains_iff.mp (by simpa using h0p)
    have heq : kv₀ = kv :=
      common_drugs_alias_disjoint kv₀ h0mem kv hkv (pyStrip (pyLower s)) h0c hmem
    simp only [standardize_drug_name]
    rw [if_neg (fun hc => h ((any_key_iff _).mp hc)), hfind, heq]
  · intro h halias kv hfind₂
    have hfind₁ : COMMON_DRUGS.find?
        (fun kv => kv.2.contains (pyStrip (pyLower s))) = none := by
      rw [List.find?_eq_none]
      intro kv' hkv' hcont
      exact halias kv' hkv' (contains_iff.mp hcont)
    simp only [standardize_drug_name]
    rw [if_neg (fun hc => h ((any_key_iff _).mp hc)), hfind₁, hfind₂]
  · intro h halias hsub
    exact standardize_no_table_match s h halias hsub

/-- C2 witness: one concrete input through each of the four resolution
branches — a canonical name, an alias, a substring-only match, and an
unmatched token that passes through. -/
theorem standardize_drug_name_resolution_order_witness :
    (standardize_drug_name ("Metformin") = "metformin") ∧
    (standardize_drug_name ("Tylenol") = "paracetamol") ∧
    (standardize_drug_name ("amoxi") = "amoxicillin") ∧
    (standardize_drug_name ("hello") = "hello") :=
  ⟨(standardize_drug_name_resolution_order ("Metformin")).1 (by decide),
   (standardize_drug_name_resolution_order ("Tylenol")).2.1 (by decide)
     ("paracetamol", ["acetaminophen", "tylenol", "crocin", "dolo"]) (by decide) (by decide),
   (standardize_drug_name_resolution_order ("amoxi")).2.2.1 (by decide) (by decide)
     ("amoxicillin", ["augmentin", "amoxil"]) (by decide),
   (standardize_drug_name_resolution_order ("hello")).2.2.2 (by decide) (by decide) (by decide)⟩

/-- C4: `validate_dosage_and_frequency` applies every dosage pattern and
every frequency pattern (case-insensitively, by the engine), pools the
matches into one dosage collection and one frequency collection with
duplicates collapsed, returns empty collections when no pattern matches,
and — being total — never fails. -/
theorem validate_dosage_and_frequency_spec (text : String) :
    (validate_dosage_and_frequency text).dosages.Nodup ∧
    (validate_dosage_and_frequency text).frequencies.Nodup ∧
    (∀ s, s ∈ (validate_dosage_and_frequency text).dosages ↔
      ∃ p ∈ DOSAGE_PATTERNS, s ∈ findall p text) ∧
    (∀ s, s ∈ (validate_dosage_and_frequency text).frequencies ↔
      ∃ p ∈ FREQUENCY_PATTERNS, s ∈ findall p text) ∧
    ((∀ p ∈ DOSAGE_PATTERNS, findall p text = []) →
      (validate_dosage_and_frequency text).dosages = []) ∧
    ((∀ p ∈ FREQUENCY_PATTERNS, findall p text = []) →
      (validate_dosage_and_frequency text).frequencies = []) := by
  refine ⟨?_, ?_, ?_, ?_, ?_, ?_⟩
  · exact nodup_firstSeenDedupAux _ []
  · exact nodup_firstSeenDedupAux _ []
  · intro s
    simp only [validate_dosage_and_frequency, firstSeenDedup]
    rw [mem_firstSeenDedupAux]
    simp [List.mem_flatten, List.mem_map]
  · intro s
    simp only [validate_dosage_and_frequency, firstSeenDedup]
    rw [mem_firstSeenDedupAux]
    simp [List.mem_flatten, List.mem_map]
  · intro hall
    have hfl : (DOSAGE_PATTERNS.map (fun p => findall p text)).flatten = [] := by
      rw [List.flatten_eq_nil_iff]
      intro l hl
      rcases List.mem_map.mp hl with ⟨p, hp, rfl⟩
      exact hall p hp
    simp only [validate_dosage_and_frequency, firstSeenDedup, hfl, firstSeenDedupAux]
  · intro hall
    have hfl : (FREQUENCY_PATTERNS.map (fun p => findall p text)).flatten = [] := by
      rw [List.flatten_eq_nil_iff]
      intro l hl
      rcases List.mem_map.mp hl with ⟨p, hp, rfl⟩
      exact hall p hp
    simp only [validate_dosage_and_frequency, firstSeenDedup, hfl, firstSeenDedupAux]

/-- C4 witness: on the empty text no pattern matches and both returned
collections are empty. -/
theorem validate_dosage_and_frequency_spec_witness :
    (validate_dosage_and_frequency "").dosages = [] ∧
    (validate_dosage_and_frequency "").frequencies = [] :=
  ⟨(validate_dosage_and_frequency_spec "").2.2.2.2.1
      (by intro p hp; fin_cases hp <;> decide),
   (validate_dosage_and_frequency_spec "").2.2.2.2.2
      (by intro p hp; fin_cases hp <;> decide)⟩

/-- C5: `get_ecommerce_links` returns a mapping keyed exactly by the
input drugs (one key per distinct drug), and each input drug maps to one
`EcommerceLink` per configured partner site, in site order, whose URL is
the site's search-URL template with the space-escaped drug name
substituted into the slot. -/
theorem get_ecommerce_links_spec (drugs : List String) :
    ((get_ecommerce_links drugs).map Prod.fst).Nodup ∧
    (∀ d, d ∈ (get_ecommerce_links drugs).map Prod.fst ↔ d ∈ drugs) ∧
    (∀ d, d ∈ drugs → dictGet (get_ecommerce_links drugs) d =
      some (MEDICAL_ECOMMERCE_SITES.map (fun site =>
        { site_name := site.name,
          url := pyFormat site.search_url (pyReplaceSpaces d) }))) := by
  refine ⟨?_, ?_, ?_⟩
  · exact nodup_keys_foldl_links drugs [] (by simp)
  · intro d
    rw [get_ecommerce_links, mem_keys_foldl_links]
    simp
  · intro d hd
    rw [get_ecommerce_links, dictGet_foldl_links, if_pos hd, linksFor]

/-- C5 witness: the spec's example input, one entry keyed "paracetamol"
carrying one link per configured site. -/
theorem get_ecommerce_links_spec_witness :
    ("paracetamol" ∈ ["paracetamol"]) ∧
    dictGet (get_ecommerce_links ["paracetamol"]) "paracetamol" =
      some (MEDICAL_ECOMMERCE_SITES.map (fun site =>
        { site_name := site.name,
          url := pyFormat site.search_url (pyReplaceSpaces "paracetamol") })) :=
  ⟨by decide,
   (get_ecommerce_links_spec ["paracetamol"]).2.2 "paracetamol" (by decide)⟩

/-- Failure of the NER collaborator: the pipeline never loaded, or the
pipeline call raised. -/
def nerFailed (ner : Option (String → Except String (List RawEntity)))
    (text : String) : Prop :=
  ner = none ∨ ∃ f e, ner = some f ∧ f text = Except.error e

/-- C6: `comprehensive_analysis` always returns a complete record: a
failing NER collaborator yields an empty entity list, a failing
generative collaborator yields the error-marked analysis string, and in
both cases every other field is still computed — the core is total and
never propagates a collaborator failure. -/
theorem comprehensive_analysis_failure_tolerant
    (ner : Option (String → Except String (List RawEntity)))
    (gemini : String → Except String String) (input : AnalysisInput) :
    (nerFailed ner (extractedTextOf input) →
      (comprehensive_analysis ner gemini input).medical_entities = []) ∧
    (∀ e, gemini (geminiPrompt (extractedTextOf input)) = Except.error e →
      (comprehensive_analysis ner gemini input).gemini_analysis =
        "Gemini analysis error: " ++ e) ∧
    (comprehensive_analysis ner gemini input).extracted_text = extractedTextOf input ∧
    (comprehensive_analysis ner gemini input).recognized_drugs =
      recognize_and_standardize_drugs (extractedTextOf input) ∧
    (comprehensive_analysis ner gemini input).dosage_frequency =
      validate_dosage_and_frequency (extractedTextOf input) ∧
    (comprehensive_analysis ner gemini input).ecommerce_links =
      get_ecommerce_links (recognize_and_standardize_drugs (extractedTextOf input)) := by
  refine ⟨?_, ?_, rfl, rfl, rfl, rfl⟩
  · rintro (rfl | ⟨f, e, rfl, hf⟩)
    · rfl
    · simp only [comprehensive_analysis, extract_medical_entities, hf]
  · intro e he
    simp only [comprehensive_analysis, analyze_with_gemini, he]

/-- C6 witness: with a missing NER pipeline and a raising generative
collaborator, the record still comes back with the two placeholders. -/
theorem comprehensive_analysis_failure_tolerant_witness :
    (comprehensive_analysis none (fun _ => Except.error "boom")
      (AnalysisInput.text "")).medical_entities = [] ∧
    (comprehensive_analysis none (fun _ => Except.error "boom")
      (AnalysisInput.text "")).gemini_analysis = "Gemini analysis error: boom" :=
  ⟨(comprehensive_analysis_failure_tolerant none (fun _ => Except.error "boom")
      (AnalysisInput.text "")).1 (Or.inl rfl),
   (comprehensive_analysis_failure_tolerant none (fun _ => Except.error "boom")
      (AnalysisInput.text "")).2.1 "boom" rfl⟩

/-- Refinement view: the source resolver agrees with a resolver
transcribed from the spec's step-4 wording. -/
theorem standardize_drug_name_eq_spec (s : String) :
    standardize_drug_name s = resolveCandidate_spec s := by
  simp only [standardize_drug_name, resolveCandidate_spec]
  by_cases h : pyStrip (pyLower s) ∈ canonicalNames
  · rw [if_pos ((any_key_iff _).mpr h), if_pos h]
  · rw [if_neg (fun hc => h ((any_key_iff _).mp hc)), if_neg h]

end MedRx
